import Mathlib

/-!
Verification of the client-side credential lifecycle manager of the
retail-analytics frontend: the `TokenManager` class (token expiry detection,
single-flight refresh, proactive scheduling), the axios response interceptor
(401 handling), and the `AuthContext` session state machine
(login / signup / logout / initializeAuth).

All definitions are shallow embeddings of the TypeScript source.  Times are
in integer milliseconds, matching the `Date.now()` arithmetic of the code.
A stored bearer token is classified by the outcome of the decode attempt
that `isTokenExpired` performs on it (split on dots, base64 and JSON parse
of the payload): this classification is the `Token` inductive below.
-/

namespace RetailAuth

/-- Classification of a bearer token string by how the decode logic of
`isTokenExpired` and `scheduleTokenRefresh` sees it:
the hard-coded local development token; a well-formed JWT whose payload
carries a numeric `exp` claim (seconds since epoch); a string that does not
split into three dot-separated parts; a three-part string whose payload
fails to parse or lacks a usable `exp` claim. -/
inductive Token where
  | localTest
  | jwt (exp : Int)
  | nonJwt
  | badPayload
deriving DecidableEq, Repr

/-- The localStorage slots the credential code reads and writes:
keys `auth_token`, `refresh_token`, `token_expires_at`, `user_data`.
`none` models an absent key. -/
structure Store where
  auth_token : Option Token
  refresh_token : Option String
  token_expires_at : Option Int
  user_data : Option String
deriving DecidableEq, Repr

/-- Five minutes in milliseconds, the fixed expiry skew of `isTokenExpired`. -/
def fiveMinutesMs : Int := 5 * 60 * 1000

/-- Ten minutes in milliseconds, the fixed lead time of `scheduleTokenRefresh`. -/
def tenMinutesMs : Int := 10 * 60 * 1000

/-- Embedding of `TokenManager.isTokenExpired` applied to an explicit token
argument (code: `token || this.getAccessToken()`; an absent token yields
`true`).  A JWT with claim `exp` is expired when
`exp * 1000 - now < fiveMinutes`; the local test token, non-JWT strings and
undecodable payloads are never expired. -/
def isTokenExpired (nowMs : Int) (tokenToCheck : Option Token) : Bool :=
  match tokenToCheck with
  | none => true
  | some Token.localTest => false
  | some (Token.jwt exp) => decide (exp * 1000 - nowMs < fiveMinutesMs)
  | some Token.nonJwt => false
  | some Token.badPayload => false

/-- Embedding of `TokenManager.clearTokens`: removes the keys `auth_token`,
`refresh_token`, `token_expires_at` and `user_data`. -/
def clearTokens (s : Store) : Store :=
  { s with auth_token := none, refresh_token := none,
           token_expires_at := none, user_data := none }

/-- Argument record of `TokenManager.setTokens`. -/
structure TokenData where
  access_token : Token
  refresh_token : String
  expires_at : Int
deriving DecidableEq, Repr

/-- Embedding of `TokenManager.setTokens`: stores the access and refresh
tokens and writes `token_expires_at := Date.now() + expires_at * 1000`.
The `user_data` key is untouched. -/
def setTokens (nowMs : Int) (d : TokenData) (s : Store) : Store :=
  { s with auth_token := some d.access_token,
           refresh_token := some d.refresh_token,
           token_expires_at := some (nowMs + d.expires_at * 1000) }

/-- Outcome of the `fetch` to `/api/auth/refresh` as `performTokenRefresh`
observes it: a 2xx response carrying `access_token`, an optional new
`refresh_token` and an optional `expires_in`; a non-2xx status; or a thrown
transport error. -/
inductive RefreshResponse where
  | ok (access_token : Token) (refresh_token : Option String) (expires_in : Option Int)
  | httpError (status : Nat)
  | transportError
deriving DecidableEq, Repr

/-- True exactly on the `response.ok` branch of `performTokenRefresh`. -/
def RefreshResponse.isOk : RefreshResponse → Bool
  | RefreshResponse.ok _ _ _ => true
  | RefreshResponse.httpError _ => false
  | RefreshResponse.transportError => false

/-- Embedding of `TokenManager.performTokenRefresh`: on a 2xx response it
stores the new pair (`data.refresh_token || refreshToken`,
`data.expires_in || 3600`) and returns `true`; on a non-2xx response or a
thrown transport error it clears the store and returns `false`.  The store
result is paired with the boolean the promise resolves with. -/
def performTokenRefresh (nowMs : Int) (resp : RefreshResponse)
    (refreshToken : String) (s : Store) : Bool × Store :=
  match resp with
  | RefreshResponse.ok tok rt exp =>
      (true, setTokens nowMs ⟨tok, rt.getD refreshToken, exp.getD 3600⟩ s)
  | RefreshResponse.httpError _ => (false, clearTokens s)
  | RefreshResponse.transportError => (false, clearTokens s)

/-- Embedding of `TokenManager.refreshAccessToken` in the sequential case
(no refresh already in flight; the concurrent case is the step machine
below).  With no stored refresh token it clears the store and reports
failure without any network call; otherwise it performs exactly one
`performTokenRefresh` network call.  The third component counts network
calls issued. -/
def refreshAccessToken (nowMs : Int) (resp : RefreshResponse) (s : Store) :
    Bool × Store × Nat :=
  match s.refresh_token with
  | none => (false, clearTokens s, 0)
  | some rt =>
      let r := performTokenRefresh nowMs resp rt s
      (r.1, r.2, 1)

/-- Result of one sequential `getValidAccessToken` call: the value the
promise resolves with, the store afterwards, the number of refresh network
calls issued, and whether the failure path assigned `window.location.href`. -/
structure GetTokenResult where
  result : Option Token
  store : Store
  netCalls : Nat
  redirected : Bool
deriving DecidableEq, Repr

/-- Embedding of `TokenManager.getValidAccessToken` in the sequential case:
no stored access token yields `null` at once; the local test token and any
non-expired token are returned at once; an expired token triggers
`refreshAccessToken`, after which success returns the freshly stored token
and failure assigns `window.location.href` and returns `null`. -/
def getValidAccessToken (nowMs : Int) (resp : RefreshResponse) (s : Store) :
    GetTokenResult :=
  match s.auth_token with
  | none => ⟨none, s, 0, false⟩
  | some tok =>
      if tok = Token.localTest then ⟨some tok, s, 0, false⟩
      else if isTokenExpired nowMs (some tok) = false then ⟨some tok, s, 0, false⟩
      else
        match refreshAccessToken nowMs resp s with
        | (true, s2, n) => ⟨s2.auth_token, s2, n, false⟩
        | (false, s2, n) => ⟨none, s2, n, true⟩

/-- Embedding of `TokenManager.scheduleTokenRefresh`, acting on the multiset
of currently armed one-shot timer delays (the code stores no timer handle,
so nothing is ever cleared).  With no token, an expired token, the local
test token or an undecodable token it arms nothing; for a non-expired JWT it
computes `refreshTime = exp * 1000 - now - 10 minutes` and arms a timer with
that delay when it is positive. -/
def scheduleTokenRefresh (nowMs : Int) (s : Store) (timers : List Int) :
    List Int :=
  match s.auth_token with
  | none => timers
  | some tok =>
      if isTokenExpired nowMs (some tok) then timers
      else
        match tok with
        | Token.localTest => timers
        | Token.nonJwt => timers
        | Token.badPayload => timers
        | Token.jwt exp =>
            let refreshTime := exp * 1000 - nowMs - tenMinutesMs
            if 0 < refreshTime then refreshTime :: timers else timers

/-- The effect of `TokenManager.performTokenRefresh` on the pair
(store, armed timers): the function body contains no `setTimeout` or
`clearTimeout` call, so the timer state passes through unchanged in every
branch. -/
def performTokenRefreshWithTimers (nowMs : Int) (resp : RefreshResponse)
    (refreshToken : String) (s : Store) (timers : List Int) :
    Bool × Store × List Int :=
  let r := performTokenRefresh nowMs resp refreshToken s
  (r.1, r.2, timers)

/-- State observed by the axios response interceptor: the persisted store,
the sequence of `window.location.href` assignments made so far, and a count
of executed store-clear blocks. -/
structure HttpState where
  store : Store
  navigations : List String
  clears : Nat
deriving DecidableEq, Repr

/-- Embedding of the error branch of `api.interceptors.response`: when the
rejected response has status 401 it removes `auth_token` and `user_data`
and assigns `window.location.href := /login`; any other error leaves the
state alone.  There is no guard flag in the source: every 401 runs the
block. -/
def handleResponseError (status : Option Nat) (h : HttpState) : HttpState :=
  if status = some 401 then
    { store := { h.store with auth_token := none, user_data := none },
      navigations := h.navigations ++ ["/login"],
      clears := h.clears + 1 }
  else h

/-- N rejected responses handled in sequence by the interceptor (the
event-loop runs each rejection handler to completion, one after another). -/
def handleAll (events : List (Option Nat)) (h : HttpState) : HttpState :=
  events.foldl (fun st e => handleResponseError e st) h

/-- In-memory React state of `AuthProvider` together with the persisted
store: `user` mirrors the `useState` user value (the serialized profile),
`error` the error message state, `loading` the loading flag. -/
structure AppState where
  store : Store
  user : Option String
  error : String
  loading : Bool
deriving DecidableEq, Repr

/-- Fresh application state: empty store, no user, no error. -/
def initState : AppState := ⟨⟨none, none, none, none⟩, none, "", true⟩

/-- Embedding of a successful `login`: the response token and transformed
user are stored (`setItem user_data`, `setItem auth_token`), `setUser`,
error cleared, loading ended. -/
def loginSuccess (tok : Token) (u : String) (a : AppState) : AppState :=
  { store := { a.store with auth_token := some tok, user_data := some u },
    user := some u, error := "", loading := false }

/-- Embedding of a failed `login`: only `setError` and `setLoading(false)`
run; neither localStorage nor the user state is touched. -/
def loginFail (msg : String) (a : AppState) : AppState :=
  { a with error := msg, loading := false }

/-- Embedding of a successful `signup`; the body is identical in effect to
the success branch of `login`. -/
def signupSuccess (tok : Token) (u : String) (a : AppState) : AppState :=
  { store := { a.store with auth_token := some tok, user_data := some u },
    user := some u, error := "", loading := false }

/-- Embedding of a failed `signup`: only `setError` and `setLoading(false)`
run; neither localStorage nor the user state is touched. -/
def signupFail (msg : String) (a : AppState) : AppState :=
  { a with error := msg, loading := false }

/-- Embedding of `logout` in `AuthContext`: `setUser(null)`, removal of the
`user_data` and `auth_token` keys, `setError` to the empty string.  The
`refresh_token` and `token_expires_at` keys are not touched. -/
def logout (a : AppState) : AppState :=
  { a with user := none, error := "",
           store := { a.store with user_data := none, auth_token := none } }

/-- Embedding of the 401 branch of the response interceptor followed by the
page navigation it forces: `auth_token` and `user_data` are removed, and the
reload re-creates the React state with `user` read from the now-absent
`user_data` key. -/
def teardown401 (a : AppState) : AppState :=
  let s2 := { a.store with auth_token := none, user_data := none }
  ⟨s2, s2.user_data, "", true⟩

/-- Embedding of the refresh-failure path observed through
`getValidAccessToken`: `clearTokens` ran, then `window.location.href := /`
reloaded the app, whose state is re-created from the cleared store. -/
def refreshFailReload (a : AppState) : AppState :=
  let s2 := clearTokens a.store
  ⟨s2, s2.user_data, "", true⟩

/-- Embedding of a successful refresh as it affects the application state:
`setTokens` rewrites the token keys, the React state is untouched. -/
def refreshSuccessStep (nowMs : Int) (d : TokenData) (a : AppState) : AppState :=
  { a with store := setTokens nowMs d a.store }

/-- Embedding of `initializeAuth`: with both `auth_token` and `user_data`
present the user loaded by the `useState` initializer is kept; otherwise
`setUser(null)`.  Both branches end loading. -/
def initializeAuth (a : AppState) : AppState :=
  if a.store.auth_token.isSome ∧ a.store.user_data.isSome then
    { a with loading := false }
  else
    { a with user := none, loading := false }

/-- The application states reachable from a fresh client through the
operations of the source: login and signup (success and failure), logout,
the 401 interceptor teardown, refresh success (which the code only reaches
with a stored refresh token) and the refresh-failure teardown, and
`initializeAuth` on page load. -/
inductive Reachable : AppState → Prop where
  | init : Reachable initState
  | login_ok (a : AppState) (tok : Token) (u : String) :
      Reachable a → Reachable (loginSuccess tok u a)
  | login_err (a : AppState) (msg : String) :
      Reachable a → Reachable (loginFail msg a)
  | signup_ok (a : AppState) (tok : Token) (u : String) :
      Reachable a → Reachable (signupSuccess tok u a)
  | signup_err (a : AppState) (msg : String) :
      Reachable a → Reachable (signupFail msg a)
  | logout_step (a : AppState) : Reachable a → Reachable (logout a)
  | reject401 (a : AppState) : Reachable a → Reachable (teardown401 a)
  | refresh_ok (a : AppState) (nowMs : Int) (d : TokenData) (rt : String) :
      Reachable a → a.store.refresh_token = some rt →
      Reachable (refreshSuccessStep nowMs d a)
  | refresh_err (a : AppState) : Reachable a → Reachable (refreshFailReload a)
  | init_auth (a : AppState) : Reachable a → Reachable (initializeAuth a)

/-- The credential store holds nothing. -/
def StoreEmpty (s : Store) : Prop :=
  s.auth_token = none ∧ s.refresh_token = none ∧
  s.token_expires_at = none ∧ s.user_data = none

/-- Inductive invariant of the reachable states: the refresh-token and
expiry keys are never populated (nothing in the source writes them outside
`setTokens`, which is unreachable without a stored refresh token), an
authenticated user implies the token pair is stored, and an absent user
implies both the token and the profile keys are absent. -/
def SessionInv (a : AppState) : Prop :=
  a.store.refresh_token = none ∧ a.store.token_expires_at = none ∧
  (a.user.isSome → a.store.auth_token.isSome ∧ a.store.user_data.isSome) ∧
  (a.user = none → a.store.auth_token = none ∧ a.store.user_data = none)

/-!
Step machine for the single-flight refresh.  Each concurrent
`getValidAccessToken` call is a coroutine; the event loop runs its
synchronous segments atomically.  Segment one (`Act.call i`) runs from the
top of `getValidAccessToken` through `refreshAccessToken` up to the first
suspension: the caller either finishes at once (no token, non-expired
token, or the no-refresh-token clear), claims the empty `refreshPromise`
slot and issues the single `fetch` (owner), or attaches to the slot already
in flight.  `Act.resolve` is the arrival of the network outcome: the body
of `performTokenRefresh` after the fetch runs (store update) and the shared
promise resolves.  `Act.fin i` is the continuation of caller `i` after the
awaited promise resolved: the owner also clears the `refreshPromise` slot,
and every waiter returns the freshly stored token on success or `null` on
failure. -/

/-- Program counter of one concurrent `getValidAccessToken` caller. -/
inductive Pc where
  | ready
  | waitingOwner
  | waitingAttached
  | done (result : Option Token)
deriving DecidableEq, Repr

/-- Global configuration of the single-flight machine: the store, whether
`refreshPromise` is non-null, the resolved value of the pending promise if
it has resolved, the refresh-token argument captured by the owner, the
number of refresh network calls issued so far, and each caller state. -/
structure Cfg where
  store : Store
  inflight : Bool
  resolved : Option Bool
  pendingRt : Option String
  net : Nat
  pc : Nat → Pc

/-- Scheduler actions: run the first segment of caller `i`, deliver the
network outcome, or run the post-await continuation of caller `i`. -/
inductive Act where
  | call (i : Nat)
  | resolve
  | fin (i : Nat)
deriving DecidableEq, Repr

/-- Pointwise update of the caller map. -/
def setPc (f : Nat → Pc) (i : Nat) (p : Pc) : Nat → Pc :=
  fun j => if j = i then p else f j

/-- One scheduler step of the single-flight machine; an action whose
precondition does not hold (a caller not at the right point, a resolve with
nothing in flight) is a no-op. -/
def step (nowMs : Int) (resp : RefreshResponse) (c : Cfg) : Act → Cfg
  | Act.call i =>
      match c.pc i with
      | Pc.ready =>
          match c.store.auth_token with
          | none => { c with pc := setPc c.pc i (Pc.done none) }
          | some tok =>
              if isTokenExpired nowMs (some tok) = false then
                { c with pc := setPc c.pc i (Pc.done (some tok)) }
              else if c.inflight then
                { c with pc := setPc c.pc i Pc.waitingAttached }
              else
                match c.store.refresh_token with
                | none => { c with store := clearTokens c.store,
                                   pc := setPc c.pc i (Pc.done none) }
                | some rt => { c with inflight := true,
                                      pendingRt := some rt,
                                      net := c.net + 1,
                                      pc := setPc c.pc i Pc.waitingOwner }
      | _ => c
  | Act.resolve =>
      if c.inflight then
        match c.resolved with
        | none =>
            match c.pendingRt with
            | some rt =>
                { c with store := (performTokenRefresh nowMs resp rt c.store).2,
                         resolved := some (performTokenRefresh nowMs resp rt c.store).1 }
            | none => c
        | some _ => c
      else c
  | Act.fin i =>
      match c.resolved with
      | some b =>
          match c.pc i with
          | Pc.waitingOwner =>
              { c with inflight := false, pendingRt := none,
                       pc := setPc c.pc i
                         (Pc.done (if b then c.store.auth_token else none)) }
          | Pc.waitingAttached =>
              { c with pc := setPc c.pc i
                         (Pc.done (if b then c.store.auth_token else none)) }
          | _ => c
      | none => c

/-- Run a schedule of actions from a configuration. -/
def runC1 (nowMs : Int) (resp : RefreshResponse) (sched : List Act) (c : Cfg) :
    Cfg :=
  sched.foldl (step nowMs resp) c

/-- Initial configuration: the given store, empty `refreshPromise` slot, no
network call issued, every caller about to run. -/
def initCfg (s : Store) : Cfg := ⟨s, false, none, none, 0, fun _ => Pc.ready⟩

/-- Invariant of the call phase over a store holding an expired token and a
refresh token: the store and the unresolved promise are untouched, and
either nothing happened yet or exactly one network call is in flight with
every caller ready or waiting. -/
def Phase1Inv (s0 : Store) (rt : String) (c : Cfg) : Prop :=
  c.store = s0 ∧ c.resolved = none ∧
  ((c.inflight = false ∧ c.pendingRt = none ∧ c.net = 0 ∧
      ∀ j, c.pc j = Pc.ready) ∨
   (c.inflight = true ∧ c.pendingRt = some rt ∧ c.net = 1 ∧
      ∀ j, c.pc j = Pc.ready ∨ c.pc j = Pc.waitingOwner ∨
           c.pc j = Pc.waitingAttached))

/-- Invariant of the completion phase: the store holds the refresh result,
the promise has resolved with `b`, one network call was made, and every
caller is ready, waiting, or done with the common expected value. -/
def Phase3Inv (s1 : Store) (b : Bool) (c : Cfg) : Prop :=
  c.store = s1 ∧ c.resolved = some b ∧ c.net = 1 ∧
  ∀ j, c.pc j = Pc.ready ∨ c.pc j = Pc.waitingOwner ∨
       c.pc j = Pc.waitingAttached ∨
       c.pc j = Pc.done (if b then s1.auth_token else none)

/-!  Theorems. -/

/-- Expiry of a JWT is decided by a strict comparison. -/
theorem isTokenExpired_jwt (nowMs e : Int) :
    isTokenExpired nowMs (some (Token.jwt e)) = true ↔
      e * 1000 < nowMs + fiveMinutesMs := by
  simp only [isTokenExpired, decide_eq_true_eq, fiveMinutesMs]
  omega

/-- C2 (amended): with the fixed five-minute (300 s) skew the code
implements, `isTokenExpired` on a JWT with claim `exp` returns true iff
`exp` is strictly below `now + skew` (equivalently `now + skew > exp`, not
`now + skew >= exp`); tokens whose expiry claim cannot be decoded (non-JWT
format or a payload parse failure) and the local test token are never
reported expired. -/
theorem isTokenExpired_spec (nowMs e : Int) :
    (isTokenExpired nowMs (some (Token.jwt e)) = true ↔
      e * 1000 < nowMs + fiveMinutesMs)
    ∧ isTokenExpired nowMs (some Token.nonJwt) = false
    ∧ isTokenExpired nowMs (some Token.badPayload) = false
    ∧ isTokenExpired nowMs (some Token.localTest) = false :=
  ⟨isTokenExpired_jwt nowMs e, rfl, rfl, rfl⟩

/-- C2 counterexample: at the boundary `now + skew = exp` (here `now = 0`
ms, `exp = 300` s, skew five minutes) the claim asserts `isExpired` is true,
but the code computes `exp * 1000 - now < fiveMinutes`, which is false. -/
theorem isTokenExpired_boundary_cex :
    ¬ (isTokenExpired 0 (some (Token.jwt 300)) = true ↔
        (300 : Int) * 1000 ≤ 0 + fiveMinutesMs) := by
  decide

/-- C8: `getValidAccessToken` returns `null` at once when no access token
is stored (no renewal attempted, no network call, store untouched); returns
the stored token at once when it is not expired (this includes the local
test token and undecodable tokens); and when the stored token is expired it
awaits the renewal and resolves with the freshly stored token on success or
`null` on failure. -/
theorem getValidAccessToken_spec (nowMs : Int) (resp : RefreshResponse)
    (s : Store) :
    (s.auth_token = none →
      getValidAccessToken nowMs resp s = ⟨none, s, 0, false⟩)
    ∧ (∀ tok, s.auth_token = some tok →
        isTokenExpired nowMs (some tok) = false →
        getValidAccessToken nowMs resp s = ⟨some tok, s, 0, false⟩)
    ∧ (∀ tok, s.auth_token = some tok →
        isTokenExpired nowMs (some tok) = true →
        ∀ b s2 n, refreshAccessToken nowMs resp s = (b, s2, n) →
          (getValidAccessToken nowMs resp s).result =
            (if b then s2.auth_token else none)
          ∧ (getValidAccessToken nowMs resp s).store = s2) := by
  refine ⟨?_, ?_, ?_⟩
  · intro h
    simp [getValidAccessToken, h]
  · intro tok h hne
    by_cases htok : tok = Token.localTest
    · subst htok
      simp [getValidAccessToken, h]
    · simp [getValidAccessToken, h, htok, hne]
  · intro tok h hexp b s2 n hr
    have htok : tok ≠ Token.localTest := by
      intro he
      subst he
      simp [isTokenExpired] at hexp
    cases b with
    | true => simp [getValidAccessToken, h, htok, hexp, hr]
    | false => simp [getValidAccessToken, h, htok, hexp, hr]

/-- C8 witness: the three branches at concrete inputs. -/
theorem getValidAccessToken_spec_witness :
    (getValidAccessToken 0 RefreshResponse.transportError ⟨none, none, none, none⟩
      = ⟨none, ⟨none, none, none, none⟩, 0, false⟩)
    ∧ (getValidAccessToken 0 RefreshResponse.transportError
        ⟨some (Token.jwt 9999), none, none, none⟩
      = ⟨some (Token.jwt 9999), ⟨some (Token.jwt 9999), none, none, none⟩, 0, false⟩)
    ∧ ((getValidAccessToken 0 RefreshResponse.transportError
          ⟨some (Token.jwt 0), some "r", none, none⟩).result
        = (if false then (clearTokens ⟨some (Token.jwt 0), some "r", none, none⟩).auth_token else none)) :=
  ⟨(getValidAccessToken_spec 0 RefreshResponse.transportError
      ⟨none, none, none, none⟩).1 rfl,
   (getValidAccessToken_spec 0 RefreshResponse.transportError
      ⟨some (Token.jwt 9999), none, none, none⟩).2.1 (Token.jwt 9999) rfl (by decide),
   ((getValidAccessToken_spec 0 RefreshResponse.transportError
      ⟨some (Token.jwt 0), some "r", none, none⟩).2.2 (Token.jwt 0) rfl (by decide)
      false (clearTokens ⟨some (Token.jwt 0), some "r", none, none⟩) 1 rfl).1⟩

/-- C7: a refresh attempt whose network outcome is a failure (non-2xx
response or transport error) clears every persisted credential field,
resolves with `false` to its caller, and issues exactly one network call:
the manager never retries on its own. -/
theorem refreshFailure_terminal (nowMs : Int) (resp : RefreshResponse)
    (s : Store) (rt : String)
    (hrt : s.refresh_token = some rt)
    (hfail : resp.isOk = false) :
    refreshAccessToken nowMs resp s = (false, clearTokens s, 1)
    ∧ StoreEmpty (clearTokens s) := by
  cases resp with
  | ok tok r e => simp [RefreshResponse.isOk] at hfail
  | httpError st =>
      exact ⟨by simp [refreshAccessToken, hrt, performTokenRefresh],
        by simp [StoreEmpty, clearTokens]⟩
  | transportError =>
      exact ⟨by simp [refreshAccessToken, hrt, performTokenRefresh],
        by simp [StoreEmpty, clearTokens]⟩

/-- C7 witness: a 500 response at a concrete store. -/
theorem refreshFailure_terminal_witness :
    refreshAccessToken 0 (RefreshResponse.httpError 500)
        ⟨some (Token.jwt 0), some "r", some 7, some "u"⟩
      = (false, clearTokens ⟨some (Token.jwt 0), some "r", some 7, some "u"⟩, 1)
    ∧ StoreEmpty (clearTokens ⟨some (Token.jwt 0), some "r", some 7, some "u"⟩) :=
  refreshFailure_terminal 0 (RefreshResponse.httpError 500)
    ⟨some (Token.jwt 0), some "r", some 7, some "u"⟩ "r" rfl rfl

/-- C10: when the stored access token is expired but no refresh token is
stored, `getValidAccessToken` runs the refresh path without any network
call: the store is cleared in full (access token, refresh token, expiry,
serialized profile) and the call resolves with `null` (after assigning the
redirect). -/
theorem expiredWithoutRefreshToken_clears (nowMs : Int)
    (resp : RefreshResponse) (s : Store) (tok : Token)
    (h1 : s.auth_token = some tok)
    (h2 : isTokenExpired nowMs (some tok) = true)
    (h3 : s.refresh_token = none) :
    getValidAccessToken nowMs resp s = ⟨none, clearTokens s, 0, true⟩
    ∧ StoreEmpty (clearTokens s) := by
  have htok : tok ≠ Token.localTest := by
    intro he
    subst he
    simp [isTokenExpired] at h2
  refine ⟨?_, by simp [StoreEmpty, clearTokens]⟩
  simp [getValidAccessToken, refreshAccessToken, h1, h2, h3, htok]

/-- C10 witness: an expired JWT with no refresh token at a concrete store. -/
theorem expiredWithoutRefreshToken_clears_witness :
    getValidAccessToken 1000000 RefreshResponse.transportError
        ⟨some (Token.jwt 0), none, none, some "u"⟩
      = ⟨none, clearTokens ⟨some (Token.jwt 0), none, none, some "u"⟩, 0, true⟩
    ∧ StoreEmpty (clearTokens ⟨some (Token.jwt 0), none, none, some "u"⟩) :=
  expiredWithoutRefreshToken_clears 1000000 RefreshResponse.transportError
    ⟨some (Token.jwt 0), none, none, some "u"⟩ (Token.jwt 0)
    rfl (by decide) rfl

/-- C5 counterexample: at a store whose `refresh_token` and
`token_expires_at` keys are populated, `logout` leaves both in place, so it
does not clear every persisted client-state field. -/
theorem logout_leaves_refresh_cex :
    ¬ (((logout ⟨⟨some (Token.jwt 100), some "r", some 5, some "u"⟩,
          some "u", "", false⟩).store.refresh_token = none)
       ∧ ((logout ⟨⟨some (Token.jwt 100), some "r", some 5, some "u"⟩,
          some "u", "", false⟩).store.token_expires_at = none)) := by
  decide

/-- C5 (amended): `logout` clears the access token and the serialized user
profile (and the in-memory user and error), leaves the `refresh_token` and
`token_expires_at` keys untouched, and is idempotent on every starting
state: a second invocation changes nothing. -/
theorem logout_spec (a : AppState) :
    (logout a).store.auth_token = none
    ∧ (logout a).store.user_data = none
    ∧ (logout a).user = none
    ∧ (logout a).error = ""
    ∧ (logout a).store.refresh_token = a.store.refresh_token
    ∧ (logout a).store.token_expires_at = a.store.token_expires_at
    ∧ logout (logout a) = logout a :=
  ⟨rfl, rfl, rfl, rfl, rfl, rfl, rfl⟩

/-- C9: a failed login or signup attempt writes nothing: the persisted
store is unchanged, the machine stays `Unauthenticated` (no user), and the
user-facing error message is attached, ready for a retry. -/
theorem failedAuth_state_preserved (msg : String) (a : AppState)
    (hu : a.user = none) :
    (loginFail msg a).store = a.store
    ∧ (loginFail msg a).user = none
    ∧ (loginFail msg a).error = msg
    ∧ (signupFail msg a).store = a.store
    ∧ (signupFail msg a).user = none
    ∧ (signupFail msg a).error = msg :=
  ⟨rfl, hu, rfl, rfl, hu, rfl⟩

/-- C9 witness: a failed attempt on the fresh state. -/
theorem failedAuth_state_preserved_witness :
    (loginFail "Login failed" initState).store = initState.store
    ∧ (loginFail "Login failed" initState).user = none
    ∧ (loginFail "Login failed" initState).error = "Login failed"
    ∧ (signupFail "Login failed" initState).store = initState.store
    ∧ (signupFail "Login failed" initState).user = none
    ∧ (signupFail "Login failed" initState).error = "Login failed" :=
  failedAuth_state_preserved "Login failed" initState rfl

/-- C3 counterexample: three concurrent 401 rejections run the interceptor
block three times: three store-clear executions and three navigation
assignments, not one of each. -/
theorem interceptor_401_cex :
    ¬ ((handleAll [some 401, some 401, some 401]
          ⟨⟨some (Token.jwt 1), none, none, some "u"⟩, [], 0⟩).clears = 1
       ∧ (handleAll [some 401, some 401, some 401]
          ⟨⟨some (Token.jwt 1), none, none, some "u"⟩, [], 0⟩).navigations.length = 1) := by
  decide

/-- C3 (amended): there is no guard flag: every one of N concurrent 401
rejections executes its own store-clear block and its own navigation
assignment, so N rejections produce exactly N clears and N assignments of
the login path; the effect on the store is nevertheless idempotent, and
after at least one rejection the access token and user profile are gone. -/
theorem interceptor_401_spec (events : List (Option Nat)) (h : HttpState)
    (hall : ∀ e ∈ events, e = some 401) :
    (handleAll events h).clears = h.clears + events.length
    ∧ (handleAll events h).navigations =
        h.navigations ++ List.replicate events.length "/login"
    ∧ (events ≠ [] → (handleAll events h).store.auth_token = none
        ∧ (handleAll events h).store.user_data = none) := by
  induction events generalizing h with
  | nil => simp [handleAll]
  | cons e es ih =>
      have he : e = some 401 := hall e (by simp)
      subst he
      have hall2 : ∀ x ∈ es, x = some 401 := fun x hx => hall x (by simp [hx])
      have hstep : handleAll (some 401 :: es) h =
          handleAll es (handleResponseError (some 401) h) := rfl
      have ih2 := ih (handleResponseError (some 401) h) hall2
      rw [hstep]
      refine ⟨?_, ?_, ?_⟩
      · rw [ih2.1]
        simp [handleResponseError]
        omega
      · rw [ih2.2.1]
        simp [handleResponseError, List.replicate_succ, List.append_assoc]
      · intro _
        by_cases hes : es = []
        · subst hes
          simp [handleAll, handleResponseError]
        · exact ih2.2.2 hes

/-- C3 amended witness: three 401 rejections from a concrete state. -/
theorem interceptor_401_spec_witness :
    (handleAll [some 401, some 401, some 401]
        ⟨⟨some (Token.jwt 1), none, none, some "u"⟩, [], 0⟩).clears = 0 + 3
    ∧ (handleAll [some 401, some 401, some 401]
        ⟨⟨some (Token.jwt 1), none, none, some "u"⟩, [], 0⟩).navigations =
        [] ++ List.replicate 3 "/login"
    ∧ ([some 401, some 401, some 401] ≠ ([] : List (Option Nat)) →
        (handleAll [some 401, some 401, some 401]
          ⟨⟨some (Token.jwt 1), none, none, some "u"⟩, [], 0⟩).store.auth_token = none
        ∧ (handleAll [some 401, some 401, some 401]
          ⟨⟨some (Token.jwt 1), none, none, some "u"⟩, [], 0⟩).store.user_data = none) :=
  interceptor_401_spec [some 401, some 401, some 401]
    ⟨⟨some (Token.jwt 1), none, none, some "u"⟩, [], 0⟩ (by decide)

/-- C4 counterexample: a successful refresh (here at `now = 0` with
`expires_in = 3600` s, so the stored expiry becomes 3600000 ms) arms no
timer at all: the timer state stays empty, and in particular no timer with
delay `newExpiresAt - leadTime = 3000000` ms exists afterwards. -/
theorem refresh_does_not_rearm_cex :
    (performTokenRefreshWithTimers 0
        (RefreshResponse.ok (Token.jwt 3600) none (some 3600)) "r"
        ⟨some (Token.jwt 10), some "r", none, some "u"⟩ []).2.2 = ([] : List Int)
    ∧ ¬ ((3600 * 1000 - tenMinutesMs : Int) ∈
        (performTokenRefreshWithTimers 0
          (RefreshResponse.ok (Token.jwt 3600) none (some 3600)) "r"
          ⟨some (Token.jwt 10), some "r", none, some "u"⟩ []).2.2) := by
  decide

/-- C4 (amended): `performTokenRefresh` neither cancels nor arms any timer
in any branch; proactive rearming happens only when `scheduleTokenRefresh`
is invoked explicitly, and then, for a stored non-expired JWT whose
`exp * 1000 - now - leadTime` (leadTime = 600 s) is positive, it arms
exactly one timer with that delay, so the scheduled refresh fires at
`exp - leadTime`, not earlier. -/
theorem proactive_schedule_spec (nowMs : Int) (resp : RefreshResponse)
    (rt : String) (s : Store) (timers : List Int) (e : Int)
    (hauth : s.auth_token = some (Token.jwt e))
    (hfresh : isTokenExpired nowMs (some (Token.jwt e)) = false)
    (hpos : 0 < e * 1000 - nowMs - tenMinutesMs) :
    (performTokenRefreshWithTimers nowMs resp rt s timers).2.2 = timers
    ∧ scheduleTokenRefresh nowMs s timers =
        (e * 1000 - nowMs - tenMinutesMs) :: timers := by
  refine ⟨rfl, ?_⟩
  simp [scheduleTokenRefresh, hauth, hfresh, hpos]

/-- C4 amended witness: concrete non-expired JWT. -/
theorem proactive_schedule_spec_witness :
    (performTokenRefreshWithTimers 0 RefreshResponse.transportError "r"
        ⟨some (Token.jwt 7200), some "r", none, none⟩ []).2.2 = ([] : List Int)
    ∧ scheduleTokenRefresh 0 ⟨some (Token.jwt 7200), some "r", none, none⟩ [] =
        ((7200 : Int) * 1000 - 0 - tenMinutesMs) :: [] :=
  proactive_schedule_spec 0 RefreshResponse.transportError "r"
    ⟨some (Token.jwt 7200), some "r", none, none⟩ [] 7200
    rfl (by decide) (by decide)

/-- Every reachable application state satisfies the inductive session
invariant. -/
theorem reachable_sessionInv (a : AppState) (h : Reachable a) :
    SessionInv a := by
  induction h with
  | init => exact ⟨rfl, rfl, fun hs => by simp [initState] at hs, fun _ => ⟨rfl, rfl⟩⟩
  | login_ok a tok u _ ih =>
      exact ⟨ih.1, ih.2.1, fun _ => ⟨rfl, rfl⟩, fun hn => by simp [loginSuccess] at hn⟩
  | login_err a msg _ ih => exact ih
  | signup_ok a tok u _ ih =>
      exact ⟨ih.1, ih.2.1, fun _ => ⟨rfl, rfl⟩, fun hn => by simp [signupSuccess] at hn⟩
  | signup_err a msg _ ih => exact ih
  | logout_step a _ ih =>
      exact ⟨ih.1, ih.2.1, fun hs => by simp [logout] at hs, fun _ => ⟨rfl, rfl⟩⟩
  | reject401 a _ ih =>
      exact ⟨ih.1, ih.2.1, fun hs => by simp [teardown401] at hs, fun _ => ⟨rfl, rfl⟩⟩
  | refresh_ok a nowMs d rt _ hrt ih =>
      rw [ih.1] at hrt
      exact Option.noConfusion hrt
  | refresh_err a _ ih =>
      exact ⟨rfl, rfl, fun hs => by simp [refreshFailReload, clearTokens] at hs,
        fun _ => ⟨rfl, rfl⟩⟩
  | init_auth a _ ih =>
      by_cases hc : a.store.auth_token.isSome ∧ a.store.user_data.isSome
      · have hst : initializeAuth a = { a with loading := false } := by
          simp [initializeAuth, hc]
        rw [hst]
        exact ⟨ih.1, ih.2.1, fun _ => hc, fun hn => ih.2.2.2 hn⟩
      · have hst : initializeAuth a = { a with user := none, loading := false } := by
          simp only [initializeAuth, if_neg hc]
        rw [hst]
        have hun : a.user = none := by
          cases hu : a.user with
          | none => rfl
          | some u =>
              exact absurd (ih.2.2.1 (by simp [hu])) hc
        exact ⟨ih.1, ih.2.1, fun hs => by simp at hs, fun _ => ih.2.2.2 hun⟩

/-- C6: in every reachable application state, `Authenticated` (a user is
set) implies the token pair is persisted (access token and serialized
profile present), and `Unauthenticated` (no user) implies the credential
store is completely empty: no access token, refresh token, expiry, or
profile field is persisted.  Reachability closes the states under every
operation of the source: login, signup (success and failure), logout,
refresh success and failure, the 401 teardown, and initialization. -/
theorem session_state_invariant (a : AppState) (h : Reachable a) :
    (a.user.isSome → a.store.auth_token.isSome ∧ a.store.user_data.isSome)
    ∧ (a.user = none → StoreEmpty a.store) := by
  have hinv := reachable_sessionInv a h
  exact ⟨hinv.2.2.1,
    fun hn => ⟨(hinv.2.2.2 hn).1, hinv.1, hinv.2.1, (hinv.2.2.2 hn).2⟩⟩

/-- C6 witness: the state reached by a successful login followed by a
logout. -/
theorem session_state_invariant_witness :
    ((logout (loginSuccess (Token.jwt 100) "u" initState)).user.isSome →
      (logout (loginSuccess (Token.jwt 100) "u" initState)).store.auth_token.isSome
      ∧ (logout (loginSuccess (Token.jwt 100) "u" initState)).store.user_data.isSome)
    ∧ ((logout (loginSuccess (Token.jwt 100) "u" initState)).user = none →
        StoreEmpty (logout (loginSuccess (Token.jwt 100) "u" initState)).store) :=
  session_state_invariant (logout (loginSuccess (Token.jwt 100) "u" initState))
    (Reachable.logout_step (loginSuccess (Token.jwt 100) "u" initState)
      (Reachable.login_ok initState (Token.jwt 100) "u" Reachable.init))

/-- Call-phase step: over a store holding an expired token and a refresh
token, the first segment of any caller preserves the phase invariant,
leaves that caller past `ready`, and does not disturb callers already past
their first segment. -/
theorem phase1_call_step (nowMs : Int) (resp : RefreshResponse) (s0 : Store)
    (tok : Token) (rt : String) (i : Nat) (c : Cfg)
    (hauth : s0.auth_token = some tok)
    (hexp : isTokenExpired nowMs (some tok) = true)
    (hrt : s0.refresh_token = some rt)
    (hc : Phase1Inv s0 rt c) :
    Phase1Inv s0 rt (step nowMs resp c (Act.call i))
    ∧ (step nowMs resp c (Act.call i)).pc i ≠ Pc.ready
    ∧ ∀ j, c.pc j ≠ Pc.ready → (step nowMs resp c (Act.call i)).pc j = c.pc j := by
  obtain ⟨hs, hres, hcase⟩ := hc
  rcases hcase with ⟨hin, hprt, hnet, hall⟩ | ⟨hin, hprt, hnet, hall⟩
  · have hpci : c.pc i = Pc.ready := hall i
    have hstep : step nowMs resp c (Act.call i) =
        { c with inflight := true, pendingRt := some rt,
                 net := c.net + 1, pc := setPc c.pc i Pc.waitingOwner } := by
      simp [step, hpci, hs, hauth, hexp, hrt, hin]
    rw [hstep]
    refine ⟨⟨hs, hres, Or.inr ⟨rfl, rfl, by rw [hnet], ?_⟩⟩, ?_, ?_⟩
    · intro j
      by_cases hj : j = i
      · subst hj
        simp [setPc]
      · simp [setPc, hj, hall j]
    · simp [setPc]
    · intro j hj
      exact absurd (hall j) hj
  · rcases hall i with hpci | hpci | hpci
    · have hstep : step nowMs resp c (Act.call i) =
          { c with pc := setPc c.pc i Pc.waitingAttached } := by
        simp [step, hpci, hs, hauth, hexp, hin]
      rw [hstep]
      refine ⟨⟨hs, hres, Or.inr ⟨hin, hprt, hnet, ?_⟩⟩, ?_, ?_⟩
      · intro j
        by_cases hj : j = i
        · subst hj
          simp [setPc]
        · simp [setPc, hj]
          exact hall j
      · simp [setPc]
      · intro j hj
        by_cases hjx : j = i
        · subst hjx
          exact absurd hpci hj
        · simp [setPc, hjx]
    · have hstep : step nowMs resp c (Act.call i) = c := by
        simp [step, hpci]
      rw [hstep]
      exact ⟨⟨hs, hres, Or.inr ⟨hin, hprt, hnet, hall⟩⟩,
        by rw [hpci]; simp, fun j _ => rfl⟩
    · have hstep : step nowMs resp c (Act.call i) = c := by
        simp [step, hpci]
      rw [hstep]
      exact ⟨⟨hs, hres, Or.inr ⟨hin, hprt, hnet, hall⟩⟩,
        by rw [hpci]; simp, fun j _ => rfl⟩

/-- Call phase: running any sequence of first segments preserves the phase
invariant, and every caller whose first segment was scheduled has left
`ready`. -/
theorem phase1_run (nowMs : Int) (resp : RefreshResponse) (s0 : Store)
    (tok : Token) (rt : String)
    (hauth : s0.auth_token = some tok)
    (hexp : isTokenExpired nowMs (some tok) = true)
    (hrt : s0.refresh_token = some rt) :
    ∀ (l : List Nat) (c : Cfg), Phase1Inv s0 rt c →
      Phase1Inv s0 rt (runC1 nowMs resp (l.map Act.call) c)
      ∧ ∀ j, (c.pc j ≠ Pc.ready ∨ j ∈ l) →
          (runC1 nowMs resp (l.map Act.call) c).pc j ≠ Pc.ready := by
  intro l
  induction l with
  | nil =>
      intro c hc
      refine ⟨hc, fun j hj => ?_⟩
      rcases hj with hj | hj
      · exact hj
      · simp at hj
  | cons i l ih =>
      intro c hc
      obtain ⟨hinv, hnei, hpres⟩ :=
        phase1_call_step nowMs resp s0 tok rt i c hauth hexp hrt hc
      obtain ⟨hinv2, hready⟩ := ih (step nowMs resp c (Act.call i)) hinv
      refine ⟨hinv2, fun j hj => ?_⟩
      rcases hj with hj | hj
      · exact hready j (Or.inl (by rw [hpres j hj]; exact hj))
      · rcases List.mem_cons.mp hj with hj | hj
        · subst hj
          exact hready j (Or.inl hnei)
        · exact hready j (Or.inr hj)

/-- Resolution step: when the refresh is in flight, delivering the network
outcome updates the store exactly as `performTokenRefresh` does, resolves
the shared promise, and touches no caller. -/
theorem phase2_resolve (nowMs : Int) (resp : RefreshResponse) (s0 : Store)
    (rt : String) (c : Cfg)
    (hc : Phase1Inv s0 rt c)
    (hin : c.inflight = true) :
    Phase3Inv (performTokenRefresh nowMs resp rt s0).2
      (performTokenRefresh nowMs resp rt s0).1
      (step nowMs resp c Act.resolve)
    ∧ ∀ j, (step nowMs resp c Act.resolve).pc j = c.pc j := by
  obtain ⟨hs, hres, hcase⟩ := hc
  rcases hcase with ⟨hinf, _, _, _⟩ | ⟨_, hprt, hnet, hall⟩
  · rw [hinf] at hin
    exact Bool.noConfusion hin
  · have hstep : step nowMs resp c Act.resolve =
        { c with store := (performTokenRefresh nowMs resp rt c.store).2,
                 resolved := some (performTokenRefresh nowMs resp rt c.store).1 } := by
      simp [step, hin, hres, hprt]
    rw [hstep, hs]
    refine ⟨⟨rfl, rfl, hnet, fun j => ?_⟩, fun j => rfl⟩
    rcases hall j with hj | hj | hj
    · exact Or.inl hj
    · exact Or.inr (Or.inl hj)
    · exact Or.inr (Or.inr (Or.inl hj))

/-- Completion-phase step: the continuation of any caller preserves the
phase invariant, turns any waiting caller into `done` with the common
expected value, never returns a caller to `ready`, and leaves finished
callers finished. -/
theorem phase3_fin_step (nowMs : Int) (resp : RefreshResponse) (s1 : Store)
    (b : Bool) (i : Nat) (c : Cfg)
    (hc : Phase3Inv s1 b c) :
    Phase3Inv s1 b (step nowMs resp c (Act.fin i))
    ∧ (c.pc i ≠ Pc.ready →
        (step nowMs resp c (Act.fin i)).pc i =
          Pc.done (if b then s1.auth_token else none))
    ∧ (∀ j, c.pc j ≠ Pc.ready → (step nowMs resp c (Act.fin i)).pc j ≠ Pc.ready)
    ∧ (∀ j, c.pc j = Pc.done (if b then s1.auth_token else none) →
        (step nowMs resp c (Act.fin i)).pc j =
          Pc.done (if b then s1.auth_token else none)) := by
  obtain ⟨hs, hres, hnet, hall⟩ := hc
  rcases hall i with hpci | hpci | hpci | hpci
  · have hstep : step nowMs resp c (Act.fin i) = c := by
      simp [step, hres, hpci]
    rw [hstep]
    exact ⟨⟨hs, hres, hnet, hall⟩, fun hne => absurd hpci hne,
      fun j hj => hj, fun j hj => hj⟩
  · have hstep : step nowMs resp c (Act.fin i) =
        { c with inflight := false, pendingRt := none,
                 pc := setPc c.pc i
                   (Pc.done (if b then c.store.auth_token else none)) } := by
      simp [step, hres, hpci]
    rw [hstep, hs]
    refine ⟨⟨rfl, hres, hnet, fun j => ?_⟩, fun _ => by simp [setPc], ?_, ?_⟩
    · by_cases hj : j = i
      · subst hj
        simp [setPc]
      · simp [setPc, hj]
        exact hall j
    · intro j hj
      by_cases hjx : j = i
      · subst hjx
        simp [setPc]
      · simp [setPc, hjx]
        exact hj
    · intro j hj
      by_cases hjx : j = i
      · subst hjx
        rw [hpci] at hj
        exact Pc.noConfusion hj
      · simp [setPc, hjx]
        exact hj
  · have hstep : step nowMs resp c (Act.fin i) =
        { c with pc := setPc c.pc i
                   (Pc.done (if b then c.store.auth_token else none)) } := by
      simp [step, hres, hpci]
    rw [hstep, hs]
    refine ⟨⟨rfl, hres, hnet, fun j => ?_⟩, fun _ => by simp [setPc], ?_, ?_⟩
    · by_cases hj : j = i
      · subst hj
        simp [setPc]
      · simp [setPc, hj]
        exact hall j
    · intro j hj
      by_cases hjx : j = i
      · subst hjx
        simp [setPc]
      · simp [setPc, hjx]
        exact hj
    · intro j hj
      by_cases hjx : j = i
      · subst hjx
        rw [hpci] at hj
        exact Pc.noConfusion hj
      · simp [setPc, hjx]
        exact hj
  · have hstep : step nowMs resp c (Act.fin i) = c := by
      simp [step, hres, hpci]
    rw [hstep]
    exact ⟨⟨hs, hres, hnet, hall⟩, fun _ => hpci, fun j hj => hj, fun j hj => hj⟩

/-- Completion phase: running any sequence of continuations preserves the
phase invariant, and every caller that was waiting and whose continuation
was scheduled ends `done` with the common expected value. -/
theorem phase3_run (nowMs : Int) (resp : RefreshResponse) (s1 : Store)
    (b : Bool) :
    ∀ (l : List Nat) (c : Cfg), Phase3Inv s1 b c →
      Phase3Inv s1 b (runC1 nowMs resp (l.map Act.fin) c)
      ∧ ∀ j, (c.pc j = Pc.done (if b then s1.auth_token else none) ∨
              (j ∈ l ∧ c.pc j ≠ Pc.ready)) →
          (runC1 nowMs resp (l.map Act.fin) c).pc j =
            Pc.done (if b then s1.auth_token else none) := by
  intro l
  induction l with
  | nil =>
      intro c hc
      refine ⟨hc, fun j hj => ?_⟩
      rcases hj with hj | hj
      · exact hj
      · simp at hj
  | cons i l ih =>
      intro c hc
      obtain ⟨hinv, hdonei, hpres, hkeep⟩ :=
        phase3_fin_step nowMs resp s1 b i c hc
      obtain ⟨hinv2, hdone⟩ := ih (step nowMs resp c (Act.fin i)) hinv
      refine ⟨hinv2, fun j hj => ?_⟩
      rcases hj with hj | ⟨hmem, hne⟩
      · exact hdone j (Or.inl (hkeep j hj))
      · rcases List.mem_cons.mp hmem with hj | hj
        · subst hj
          exact hdone j (Or.inl (hdonei hne))
        · exact hdone j (Or.inr ⟨hj, hpres j hne⟩)

/-- C1: for any number of concurrent `getValidAccessToken` callers whose
first segments all run while the stored token is expired, a refresh token
is present, and the refresh has not yet resolved, and under any event-loop
interleaving of those segments with the network resolution and the
continuations, exactly one refresh network call is issued, and every caller
whose continuation runs resolves with the same outcome: the freshly stored
access token when the refresh succeeded, `null` when it failed.  The
in-progress slot is cleared only by the owner continuation, after
resolution. -/
theorem singleFlight_refresh (nowMs : Int) (resp : RefreshResponse)
    (s0 : Store) (tok : Token) (rt : String) (calls fins : List Nat)
    (hauth : s0.auth_token = some tok)
    (hexp : isTokenExpired nowMs (some tok) = true)
    (hrt : s0.refresh_token = some rt)
    (hne : calls ≠ []) :
    (runC1 nowMs resp
        (calls.map Act.call ++ Act.resolve :: fins.map Act.fin)
        (initCfg s0)).net = 1
    ∧ ∀ i, i ∈ calls → i ∈ fins →
        (runC1 nowMs resp
            (calls.map Act.call ++ Act.resolve :: fins.map Act.fin)
            (initCfg s0)).pc i =
          Pc.done (if (performTokenRefresh nowMs resp rt s0).1
                   then (performTokenRefresh nowMs resp rt s0).2.auth_token
                   else none) := by
  have hsplit : runC1 nowMs resp
      (calls.map Act.call ++ Act.resolve :: fins.map Act.fin) (initCfg s0)
      = runC1 nowMs resp (fins.map Act.fin)
          (step nowMs resp
            (runC1 nowMs resp (calls.map Act.call) (initCfg s0)) Act.resolve) := by
    simp [runC1, List.foldl_append]
  have hinit : Phase1Inv s0 rt (initCfg s0) :=
    ⟨rfl, rfl, Or.inl ⟨rfl, rfl, rfl, fun _ => rfl⟩⟩
  obtain ⟨hinv1, hready1⟩ :=
    phase1_run nowMs resp s0 tok rt hauth hexp hrt calls (initCfg s0) hinit
  obtain ⟨i0, hi0⟩ : ∃ i, i ∈ calls := by
    cases calls with
    | nil => exact absurd rfl hne
    | cons a l => exact ⟨a, by simp⟩
  have hne0 : (runC1 nowMs resp (calls.map Act.call) (initCfg s0)).pc i0 ≠
      Pc.ready := hready1 i0 (Or.inr hi0)
  have hin : (runC1 nowMs resp (calls.map Act.call) (initCfg s0)).inflight = true := by
    rcases hinv1.2.2 with ⟨_, _, _, hall⟩ | ⟨ht, _, _, _⟩
    · exact absurd (hall i0) hne0
    · exact ht
  obtain ⟨hinv3, hpc2⟩ :=
    phase2_resolve nowMs resp s0 rt
      (runC1 nowMs resp (calls.map Act.call) (initCfg s0)) hinv1 hin
  obtain ⟨hinv3f, hdone⟩ :=
    phase3_run nowMs resp (performTokenRefresh nowMs resp rt s0).2
      (performTokenRefresh nowMs resp rt s0).1 fins _ hinv3
  rw [hsplit]
  refine ⟨hinv3f.2.2.1, fun i hic hif => ?_⟩
  apply hdone
  right
  refine ⟨hif, ?_⟩
  rw [hpc2 i]
  exact hready1 i (Or.inr hic)

/-- C1 witness: three concurrent callers over an expired token with a
refresh token present, under the schedule that starts callers 0, 1, 2,
resolves the network call successfully, and runs the continuations in the
order 2, 0, 1. -/
theorem singleFlight_refresh_witness :
    (runC1 0 (RefreshResponse.ok (Token.jwt 9999) (some "r2") (some 3600))
        (([0, 1, 2] : List Nat).map Act.call ++
          Act.resolve :: ([2, 0, 1] : List Nat).map Act.fin)
        (initCfg ⟨some (Token.jwt 0), some "r", none, some "u"⟩)).net = 1
    ∧ (runC1 0 (RefreshResponse.ok (Token.jwt 9999) (some "r2") (some 3600))
        (([0, 1, 2] : List Nat).map Act.call ++
          Act.resolve :: ([2, 0, 1] : List Nat).map Act.fin)
        (initCfg ⟨some (Token.jwt 0), some "r", none, some "u"⟩)).pc 0 =
        Pc.done (some (Token.jwt 9999))
    ∧ (runC1 0 (RefreshResponse.ok (Token.jwt 9999) (some "r2") (some 3600))
        (([0, 1, 2] : List Nat).map Act.call ++
          Act.resolve :: ([2, 0, 1] : List Nat).map Act.fin)
        (initCfg ⟨some (Token.jwt 0), some "r", none, some "u"⟩)).pc 1 =
        Pc.done (some (Token.jwt 9999))
    ∧ (runC1 0 (RefreshResponse.ok (Token.jwt 9999) (some "r2") (some 3600))
        (([0, 1, 2] : List Nat).map Act.call ++
          Act.resolve :: ([2, 0, 1] : List Nat).map Act.fin)
        (initCfg ⟨some (Token.jwt 0), some "r", none, some "u"⟩)).pc 2 =
        Pc.done (some (Token.jwt 9999)) := by
  have h := singleFlight_refresh 0
    (RefreshResponse.ok (Token.jwt 9999) (some "r2") (some 3600))
    ⟨some (Token.jwt 0), some "r", none, some "u"⟩ (Token.jwt 0) "r"
    [0, 1, 2] [2, 0, 1] rfl (by decide) rfl (by decide)
  exact ⟨h.1, h.2 0 (by decide) (by decide), h.2 1 (by decide) (by decide),
    h.2 2 (by decide) (by decide)⟩

end RetailAuth
